import Mathlib

/-!
Verification of the v4l2grab capture example (`examples/v4l2grab.rs`).

The program is shallowly embedded as follows:

* `xioctl` models the retry wrapper around `v4l2_ioctl` (source lines 31-49):
  the sequence of outcomes of the underlying call is given as a list, and the
  wrapper scans it, skipping outcomes that fail with `EINTR`/`EAGAIN`.
* `mainTrace` models the whole of `main` (source lines 51-401) as the sequence
  of externally visible operations (events) it performs, parameterized by a
  `Driver` record holding the responses the kernel/driver gives back.  A Rust
  `panic!` (or an out-of-bounds `Vec` index, which panics) terminates the
  trace with a `panicEvt` event; no further event follows it, matching the
  fact that a panicking process performs none of the explicit teardown calls.
* `ppmHeaderChars` / `writtenFrameFile` model the per-frame output file
  (source lines 347-363): the header produced by
  `write!(fout, "P6\n{} {} 255\n", w, h)` followed by `buf.bytesused` raw
  bytes, and `parseHeader` is a parser recovering the dimensions.
-/

namespace V4l2grab

/-! ### The ioctl retry wrapper (`xioctl`, lines 31-49) -/

/-- Outcome of one underlying `v4l2_ioctl` call: its return value and the
value of `errno` after the call. -/
structure CallOutcome where
  ret : Int
  err : Nat
deriving DecidableEq

/-- Linux `EINTR`. -/
def EINTR : Nat := 4

/-- Linux `EAGAIN`. -/
def EAGAIN : Nat := 11

/-- The retry condition of `xioctl` (line 36):
`r == -1 && (errno == EINTR || errno == EAGAIN)`. -/
def retryable (o : CallOutcome) : Bool :=
  o.ret == -1 && (o.err == EINTR || o.err == EAGAIN)

/-- The `xioctl` loop (lines 34-42) over a finite list of underlying call
outcomes: retryable outcomes are skipped, the first other outcome is
returned unchanged.  `none` means the supplied outcome list was exhausted
while still retrying. -/
def xioctl : List CallOutcome → Option CallOutcome
  | [] => none
  | o :: rest => if retryable o then xioctl rest else some o

/-! ### Constants of the program -/

/-- `V4L2_PIX_FMT_RGB24`, built exactly as on lines 70-71:
`('R') | ('G' << 8) | ('B' << 16) | ('3' << 24)`. -/
def V4L2_PIX_FMT_RGB24 : Nat :=
  82 ||| (71 <<< 8) ||| (66 <<< 16) ||| (51 <<< 24)

/-- Linux `O_RDWR`. -/
def O_RDWR : Nat := 2

/-- Linux `O_NONBLOCK` (octal 04000). -/
def O_NONBLOCK : Nat := 2048

/-- The flags actually passed to `v4l2_open` on line 60:
`libc::O_RDWR /* | libc::O_NONBLOCK */` — the non-blocking flag is
commented out in the source. -/
def openFlags : Nat := O_RDWR

/-- The buffer count requested from the driver (`req.count = 2`, line 209). -/
def REQUESTED_COUNT : Nat := 2

/-! ### Events and driver responses -/

/-- One externally visible operation performed by `main`.  `waitReady` is in
the vocabulary so that the absence of any readiness wait (`select`/`poll`)
in the program can be stated; `main` never emits it. -/
inductive Event where
  | openDev : Event
  | enumSizes : Event
  | setFmt : Event
  | warnSize (w h : Nat) : Event
  | reqbufs : Event
  | querybuf (i : Nat) : Event
  | mmapBuf (i : Nat) : Event
  | mmapFail (i : Nat) : Event
  | qbuf (i : Nat) : Event
  | streamon : Event
  | waitReady : Event
  | dqbuf (i : Nat) : Event
  | writeFrame (i w h bytes : Nat) : Event
  | streamoff : Event
  | munmapBuf (i : Nat) : Event
  | closeDev : Event
  | panicEvt (msg : String) : Event
deriving DecidableEq

/-- The environment's responses to the program: the return value of
`v4l2_open`, the fields of `fmt.fmt.pix` after `VIDIOC_S_FMT` returns
(the ioctl mutates `fmt` in place), the `req.count` left by
`VIDIOC_REQBUFS`, whether the `v4l2_mmap` of buffer `i` succeeds, and the
`index`/`bytesused` fields filled in by `VIDIOC_DQBUF` at loop iteration
`j`. -/
structure Driver where
  openRet : Int
  sfmtPixelformat : Nat
  sfmtWidth : Nat
  sfmtHeight : Nat
  reqCount : Nat
  mmapOk : Nat → Bool
  dqIndex : Nat → Nat
  dqBytes : Nat → Nat

/-- The warning branch of lines 199-205: emitted exactly when the driver's
returned size differs from the requested 640x480. -/
def warnIf (d : Driver) : List Event :=
  if d.sfmtWidth ≠ 640 ∨ d.sfmtHeight ≠ 480 then
    [Event.warnSize d.sfmtWidth d.sfmtHeight]
  else []

/-- The buffer-mapping loop of lines 238-288: for each index, a
`VIDIOC_QUERYBUF` then a `v4l2_mmap`; if the mapping returns `MAP_FAILED`
the program panics (line 285) and the loop produces no further event.  The
boolean records whether the loop ran to completion. -/
def mapLoop (ok : Nat → Bool) : List Nat → List Event × Bool
  | [] => ([], true)
  | i :: rest =>
    if ok i then
      (Event.querybuf i :: Event.mmapBuf i :: (mapLoop ok rest).1,
        (mapLoop ok rest).2)
    else
      ([Event.querybuf i, Event.mmapFail i, Event.panicEvt "mmap"], false)

/-- The streaming loop of lines 331-371: each iteration issues a
`VIDIOC_DQBUF`, writes the frame file reading from
`buffers[buf.index as usize]` (which panics with an index-out-of-bounds
error when `buf.index` is not below the vector's length), and re-issues a
`VIDIOC_QBUF` for the same descriptor.  The boolean records whether all
iterations completed. -/
def captureLoop (C w h : Nat) (dqI dqB : Nat → Nat) : List Nat → List Event × Bool
  | [] => ([], true)
  | j :: rest =>
    if dqI j < C then
      (Event.dqbuf (dqI j) ::
        Event.writeFrame (dqI j) w h (dqB j) ::
          Event.qbuf (dqI j) :: (captureLoop C w h dqI dqB rest).1,
        (captureLoop C w h dqI dqB rest).2)
    else
      ([Event.dqbuf (dqI j), Event.panicEvt "index"], false)

/-- The full event trace of `main` (lines 51-401) against driver `d`:
open (panic when it returns -1, lines 63-66), the advisory frame-size
enumeration (lines 86-127), `VIDIOC_S_FMT` (line 194) with the
pixel-format gate (lines 195-198) and the size warning (lines 199-205),
`VIDIOC_REQBUFS` (line 234), the query/mmap loop, the initial enqueue loop
(lines 290-306), `VIDIOC_STREAMON` (line 325), twenty capture iterations
(line 331), and on normal completion `VIDIOC_STREAMOFF` (line 389), one
`v4l2_munmap` per mapped buffer (lines 395-398) and `v4l2_close`
(line 399). -/
def mainTrace (d : Driver) : List Event :=
  if d.openRet = -1 then
    [Event.openDev, Event.panicEvt "open"]
  else
    Event.openDev :: Event.enumSizes :: Event.setFmt ::
      (if d.sfmtPixelformat = V4L2_PIX_FMT_RGB24 then
        warnIf d ++
          Event.reqbufs ::
            ((mapLoop d.mmapOk (List.range d.reqCount)).1 ++
              (if (mapLoop d.mmapOk (List.range d.reqCount)).2 then
                (List.range d.reqCount).map Event.qbuf ++
                  Event.streamon ::
                    ((captureLoop d.reqCount d.sfmtWidth d.sfmtHeight
                        d.dqIndex d.dqBytes (List.range 20)).1 ++
                      (if (captureLoop d.reqCount d.sfmtWidth d.sfmtHeight
                            d.dqIndex d.dqBytes (List.range 20)).2 then
                        Event.streamoff ::
                          ((List.range d.reqCount).map Event.munmapBuf ++
                            [Event.closeDev])
                      else []))
              else []))
      else [Event.panicEvt "format"])

/-- Selector: the index of a successful-mapping event. -/
def mmapIdx? : Event → Option Nat
  | Event.mmapBuf i => some i
  | _ => none

/-- Selector: the index of an enqueue event. -/
def qbufIdx? : Event → Option Nat
  | Event.qbuf i => some i
  | _ => none

/-- Recognizer for the stream-on event. -/
def isStreamon : Event → Bool
  | Event.streamon => true
  | _ => false

/-- The events produced by a completed query/mmap loop over indices `L`. -/
def mapPairs (L : List Nat) : List Event :=
  L.flatMap fun i => [Event.querybuf i, Event.mmapBuf i]

/-- The events produced by completed capture iterations `L` against `d`. -/
def capTriples (d : Driver) (L : List Nat) : List Event :=
  L.flatMap fun j =>
    [Event.dqbuf (d.dqIndex j),
     Event.writeFrame (d.dqIndex j) d.sfmtWidth d.sfmtHeight (d.dqBytes j),
     Event.qbuf (d.dqIndex j)]

/-! ### The per-frame output file (lines 347-363) -/

/-- Digit recognizer (ASCII `'0'..'9'`). -/
def isDigitChar (c : Char) : Bool :=
  decide (48 ≤ c.toNat ∧ c.toNat ≤ 57)

/-- The ASCII digit for `d < 10`. -/
def digitChar (d : Nat) : Char :=
  match d with
  | 0 => '0' | 1 => '1' | 2 => '2' | 3 => '3' | 4 => '4'
  | 5 => '5' | 6 => '6' | 7 => '7' | 8 => '8' | _ => '9'

/-- Decimal rendering of a natural number, most significant digit first,
as Rust's `Display` for `u32` produces it. -/
def natChars (n : Nat) : List Char :=
  if n = 0 then ['0'] else ((Nat.digits 10 n).reverse.map digitChar)

/-- Numeric value of a most-significant-first digit string. -/
def charsVal (cs : List Char) : Nat :=
  cs.foldl (fun a c => 10 * a + (c.toNat - 48)) 0

/-- The header written by `write!(fout, "P6\n{} {} 255\n", w, h)`
(lines 349-354). -/
def ppmHeaderChars (w h : Nat) : List Char :=
  ['P', '6', '\n'] ++
    (natChars w ++ (' ' :: (natChars h ++ [' ', '2', '5', '5', '\n'])))

/-- Consume an expected literal prefix. -/
def stripLit : List Char → List Char → Option (List Char)
  | [], cs => some cs
  | l :: ls, c :: cs => if c = l then stripLit ls cs else none
  | _ :: _, [] => none

/-- Read a nonempty run of digits and return its value and the rest. -/
def readNum (cs : List Char) : Option (Nat × List Char) :=
  if cs.takeWhile isDigitChar = [] then none
  else some (charsVal (cs.takeWhile isDigitChar), cs.dropWhile isDigitChar)

/-- Parse a PPM header of the shape `P6\n<w> <h> 255\n`, recovering the
width and height. -/
def parseHeader (cs : List Char) : Option (Nat × Nat) :=
  (stripLit ['P', '6', '\n'] cs).bind fun r1 =>
    (readNum r1).bind fun wr =>
      (stripLit [' '] wr.2).bind fun r3 =>
        (readNum r3).bind fun hr =>
          if hr.2 = [' ', '2', '5', '5', '\n'] then some (wr.1, hr.1) else none

/-- The frame file as written by lines 347-363: the header, then exactly
`buf.bytesused` raw bytes (`write_all` of
`slice::from_raw_parts(start, bytesused)`), and nothing else. -/
structure PpmFile where
  header : List Char
  payloadLen : Nat
deriving DecidableEq

/-- The file produced for a frame with negotiated size `w`x`h` whose
dequeue reported `bytesused` filled bytes. -/
def writtenFrameFile (w h bytesused : Nat) : PpmFile :=
  ⟨ppmHeaderChars w h, bytesused⟩

/-! ### Concrete driver behaviours used by witnesses and counterexamples -/

/-- A fully cooperative driver: open succeeds, format honored exactly,
two buffers granted, all mappings succeed, every dequeue returns buffer 0
completely filled (640*480*3 bytes). -/
def dOK : Driver :=
  ⟨0, V4L2_PIX_FMT_RGB24, 640, 480, 2, fun _ => true, fun _ => 0, fun _ => 921600⟩

/-- A driver whose open call fails. -/
def dOpenBad : Driver :=
  ⟨-1, V4L2_PIX_FMT_RGB24, 640, 480, 2, fun _ => true, fun _ => 0, fun _ => 921600⟩

/-- A driver that substitutes a different pixel format (YUYV-like). -/
def dFmtBad : Driver :=
  ⟨0, 1448695129, 640, 480, 2, fun _ => true, fun _ => 0, fun _ => 921600⟩

/-- A driver that substitutes a smaller resolution (320x240) but honors
the pixel format. -/
def dSizeSub : Driver :=
  ⟨0, V4L2_PIX_FMT_RGB24, 320, 240, 2, fun _ => true, fun _ => 0, fun _ => 230400⟩

/-- A driver granting two buffers whose second mapping fails. -/
def dMmapBad : Driver :=
  ⟨0, V4L2_PIX_FMT_RGB24, 640, 480, 2, fun i => i == 0, fun _ => 0, fun _ => 921600⟩

/-- A driver whose first dequeue returns an out-of-range buffer index. -/
def dIdxBad : Driver :=
  ⟨0, V4L2_PIX_FMT_RGB24, 640, 480, 1, fun _ => true, fun _ => 5, fun _ => 921600⟩

/-- A driver whose dequeues report only 100 filled bytes per frame. -/
def dShortFrame : Driver :=
  ⟨0, V4L2_PIX_FMT_RGB24, 640, 480, 1, fun _ => true, fun _ => 0, fun _ => 100⟩

/-- A run in which every kernel interaction succeeds: open succeeds, the
pixel format is honored, every mapping succeeds, and every dequeue returns
an in-range buffer index — exactly the executions in which the capture
loop completes all twenty iterations without a panic. -/
def normalRun (d : Driver) : Prop :=
  d.openRet ≠ -1 ∧ d.sfmtPixelformat = V4L2_PIX_FMT_RGB24 ∧
    (∀ i ∈ List.range d.reqCount, d.mmapOk i = true) ∧
    (∀ j ∈ List.range 20, d.dqIndex j < d.reqCount)

/-! ### Generic list helpers -/

theorem takeWhile_append_all {α} (p : α → Bool) (l1 l2 : List α)
    (h : ∀ x ∈ l1, p x = true) :
    (l1 ++ l2).takeWhile p = l1 ++ l2.takeWhile p := by
  induction l1 with
  | nil => simp
  | cons a l ih =>
    rw [List.cons_append, List.takeWhile_cons_of_pos (h a (by simp)),
      ih (fun x hx => h x (by simp [hx])), List.cons_append]

theorem dropWhile_append_not {α} (p : α → Bool) (l1 : List α) (c : α) (t : List α)
    (h : ∀ x ∈ l1, p x = true) (hc : p c = false) :
    (l1 ++ c :: t).dropWhile p = c :: t := by
  induction l1 with
  | nil => rw [List.nil_append, List.dropWhile_cons_of_neg (by simp [hc])]
  | cons a l ih =>
    rw [List.cons_append, List.dropWhile_cons_of_pos (h a (by simp))]
    exact ih (fun x hx => h x (by simp [hx]))

theorem takeWhile_append_not {α} (p : α → Bool) (l1 : List α) (c : α) (t : List α)
    (h : ∀ x ∈ l1, p x = true) (hc : p c = false) :
    (l1 ++ c :: t).takeWhile p = l1 := by
  rw [takeWhile_append_all p l1 (c :: t) h,
    List.takeWhile_cons_of_neg (by simp [hc]), List.append_nil]

theorem range_split_at (k n : Nat) (h : k < n) :
    ∃ L2 : List Nat,
      List.range n = List.range k ++ k :: L2 := by
  refine ⟨(List.range (n - (k + 1))).map ((k + 1) + ·), ?_⟩
  conv_lhs => rw [show n = (k + 1) + (n - (k + 1)) by omega]
  rw [List.range_add, List.range_succ]
  simp

/-! ### The retry wrapper returns the first non-retryable outcome -/

/-- C3: for every control request issued through the ioctl wrapper and every
finite sequence of underlying call outcomes, the call is re-issued whenever
it fails with errno EINTR or EAGAIN, and the wrapper returns to the caller
exactly the first outcome that is either a success or a failure with any
other errno, unchanged. -/
theorem xioctl_skips_retryable (pre : List CallOutcome) (o : CallOutcome)
    (rest : List CallOutcome) (hpre : ∀ p ∈ pre, retryable p = true)
    (ho : retryable o = false) :
    xioctl (pre ++ o :: rest) = some o := by
  induction pre with
  | nil => simp [xioctl, ho]
  | cons p ps ih =>
    rw [List.cons_append]
    simp only [xioctl, hpre p (by simp)]
    exact ih (fun q hq => hpre q (by simp [hq]))

/-! ### Decimal rendering and the header round trip -/

theorem digitChar_toNat {d : Nat} (h : d < 10) : (digitChar d).toNat = 48 + d := by
  interval_cases d <;> rfl

theorem isDigitChar_digitChar {d : Nat} (h : d < 10) :
    isDigitChar (digitChar d) = true := by
  simp only [isDigitChar, digitChar_toNat h, decide_eq_true_eq]
  omega

theorem natChars_ne_nil (n : Nat) : natChars n ≠ [] := by
  unfold natChars
  split
  · simp
  · simp [Nat.digits_ne_nil_iff_ne_zero, *]

theorem natChars_all_digit (n : Nat) : ∀ c ∈ natChars n, isDigitChar c = true := by
  unfold natChars
  split
  · intro c hc
    simp only [List.mem_singleton] at hc
    subst hc
    rfl
  · intro c hc
    simp only [List.mem_map, List.mem_reverse] at hc
    obtain ⟨d, hd, rfl⟩ := hc
    exact isDigitChar_digitChar (Nat.digits_lt_base (by norm_num) hd)

theorem charsVal_map_digits (M : List Nat) (hM : ∀ d ∈ M, d < 10) (a : Nat) :
    List.foldl (fun acc c => 10 * acc + (c.toNat - 48)) a (M.map digitChar) =
      List.foldl (fun acc d => 10 * acc + d) a M := by
  induction M generalizing a with
  | nil => rfl
  | cons d M ih =>
    simp only [List.map_cons, List.foldl_cons]
    rw [digitChar_toNat (hM d (by simp)),
      show 48 + d - 48 = d by omega]
    exact ih (fun x hx => hM x (by simp [hx])) _

theorem foldl_reverse_digits (L : List Nat) :
    List.foldl (fun acc d => 10 * acc + d) 0 L.reverse = Nat.ofDigits 10 L := by
  induction L with
  | nil => simp [Nat.ofDigits]
  | cons d L ih =>
    rw [List.reverse_cons, List.foldl_append, ih]
    simp only [List.foldl_cons, List.foldl_nil, Nat.ofDigits_cons]
    ring

theorem charsVal_natChars (n : Nat) : charsVal (natChars n) = n := by
  by_cases h : n = 0
  · subst h; rfl
  · unfold natChars charsVal
    rw [if_neg h,
      charsVal_map_digits _
        (fun d hd => Nat.digits_lt_base (by norm_num) (List.mem_reverse.mp hd)) 0,
      foldl_reverse_digits]
    exact Nat.ofDigits_digits 10 n

theorem stripLit_self (l cs : List Char) : stripLit l (l ++ cs) = some cs := by
  induction l with
  | nil => rfl
  | cons a l ih => simp [stripLit, ih]

theorem readNum_natChars (n : Nat) (c : Char) (t : List Char)
    (hc : isDigitChar c = false) :
    readNum (natChars n ++ c :: t) = some (n, c :: t) := by
  unfold readNum
  rw [takeWhile_append_not _ _ _ _ (natChars_all_digit n) hc,
    dropWhile_append_not _ _ _ _ (natChars_all_digit n) hc,
    if_neg (natChars_ne_nil n), charsVal_natChars]

theorem parseHeader_round_trip (w h : Nat) :
    parseHeader (ppmHeaderChars w h) = some (w, h) := by
  unfold parseHeader ppmHeaderChars
  rw [stripLit_self, Option.some_bind,
    readNum_natChars w ' ' _ (by rfl), Option.some_bind]
  rw [show (' ' :: (natChars h ++ [' ', '2', '5', '5', '\n'])) =
      [' '] ++ (natChars h ++ [' ', '2', '5', '5', '\n']) from rfl,
    stripLit_self, Option.some_bind,
    readNum_natChars h ' ' _ (by rfl), Option.some_bind]
  rfl

/-! ### Structure of the mapping loop -/

theorem mapLoop_ok (ok : Nat → Bool) (L : List Nat) (h : ∀ i ∈ L, ok i = true) :
    mapLoop ok L = (mapPairs L, true) := by
  induction L with
  | nil => rfl
  | cons i L ih =>
    simp only [mapLoop, h i (by simp), if_true,
      ih (fun x hx => h x (by simp [hx])), mapPairs, List.flatMap_cons]
    rfl

theorem mapLoop_fail (ok : Nat → Bool) (L1 : List Nat) (k : Nat) (L2 : List Nat)
    (h1 : ∀ i ∈ L1, ok i = true) (hk : ok k = false) :
    mapLoop ok (L1 ++ k :: L2) =
      (mapPairs L1 ++ [Event.querybuf k, Event.mmapFail k, Event.panicEvt "mmap"],
        false) := by
  induction L1 with
  | nil => simp [mapLoop, hk, mapPairs]
  | cons i L ih =>
    rw [List.cons_append]
    simp only [mapLoop, h1 i (by simp), if_true,
      ih (fun x hx => h1 x (by simp [hx])), mapPairs, List.flatMap_cons]
    rfl

theorem mapLoop_shapes (ok : Nat → Bool) (L : List Nat) (e : Event)
    (he : e ∈ (mapLoop ok L).1) :
    (∃ i ∈ L, e = Event.querybuf i) ∨ (∃ i ∈ L, e = Event.mmapBuf i) ∨
      (∃ i ∈ L, e = Event.mmapFail i) ∨ e = Event.panicEvt "mmap" := by
  induction L with
  | nil => simp [mapLoop] at he
  | cons i L ih =>
    by_cases hok : ok i = true
    · simp only [mapLoop, hok, if_true, List.mem_cons] at he
      rcases he with rfl | rfl | he
      · exact Or.inl ⟨i, by simp⟩
      · exact Or.inr (Or.inl ⟨i, by simp⟩)
      · rcases ih he with ⟨j, hj, rfl⟩ | ⟨j, hj, rfl⟩ | ⟨j, hj, rfl⟩ | rfl
        · exact Or.inl ⟨j, by simp [hj]⟩
        · exact Or.inr (Or.inl ⟨j, by simp [hj]⟩)
        · exact Or.inr (Or.inr (Or.inl ⟨j, by simp [hj]⟩))
        · exact Or.inr (Or.inr (Or.inr rfl))
    · rw [mapLoop, if_neg hok] at he
      simp only [List.mem_cons, List.mem_singleton, List.not_mem_nil, or_false] at he
      rcases he with rfl | rfl | rfl
      · exact Or.inl ⟨i, by simp⟩
      · exact Or.inr (Or.inr (Or.inl ⟨i, by simp⟩))
      · exact Or.inr (Or.inr (Or.inr rfl))

/-! ### Structure of the capture loop -/

theorem captureLoop_ok (d : Driver) (L : List Nat)
    (h : ∀ j ∈ L, d.dqIndex j < d.reqCount) :
    captureLoop d.reqCount d.sfmtWidth d.sfmtHeight d.dqIndex d.dqBytes L =
      (capTriples d L, true) := by
  induction L with
  | nil => rfl
  | cons j L ih =>
    simp only [captureLoop, if_pos (h j (by simp)),
      ih (fun x hx => h x (by simp [hx])), capTriples, List.flatMap_cons]
    rfl

theorem captureLoop_fail (d : Driver) (L1 : List Nat) (j : Nat) (L2 : List Nat)
    (h1 : ∀ x ∈ L1, d.dqIndex x < d.reqCount) (hj : ¬ d.dqIndex j < d.reqCount) :
    captureLoop d.reqCount d.sfmtWidth d.sfmtHeight d.dqIndex d.dqBytes
        (L1 ++ j :: L2) =
      (capTriples d L1 ++ [Event.dqbuf (d.dqIndex j), Event.panicEvt "index"],
        false) := by
  induction L1 with
  | nil => simp [captureLoop, hj, capTriples]
  | cons x L ih =>
    rw [List.cons_append]
    simp only [captureLoop, if_pos (h1 x (by simp)),
      ih (fun y hy => h1 y (by simp [hy])), capTriples, List.flatMap_cons]
    rfl

theorem captureLoop_shapes (C w h : Nat) (dqI dqB : Nat → Nat) (L : List Nat)
    (e : Event) (he : e ∈ (captureLoop C w h dqI dqB L).1) :
    (∃ j ∈ L, e = Event.dqbuf (dqI j)) ∨
      (∃ j ∈ L, dqI j < C ∧ e = Event.writeFrame (dqI j) w h (dqB j)) ∨
      (∃ j ∈ L, dqI j < C ∧ e = Event.qbuf (dqI j)) ∨
      e = Event.panicEvt "index" := by
  induction L with
  | nil => simp [captureLoop] at he
  | cons j L ih =>
    by_cases hok : dqI j < C
    · rw [captureLoop, if_pos hok] at he
      simp only [List.mem_cons] at he
      rcases he with rfl | rfl | rfl | he
      · exact Or.inl ⟨j, by simp⟩
      · exact Or.inr (Or.inl ⟨j, by simp, hok, rfl⟩)
      · exact Or.inr (Or.inr (Or.inl ⟨j, by simp, hok, rfl⟩))
      · rcases ih he with ⟨x, hx, rfl⟩ | ⟨x, hx, hlt, rfl⟩ | ⟨x, hx, hlt, rfl⟩ | rfl
        · exact Or.inl ⟨x, by simp [hx]⟩
        · exact Or.inr (Or.inl ⟨x, by simp [hx], hlt, rfl⟩)
        · exact Or.inr (Or.inr (Or.inl ⟨x, by simp [hx], hlt, rfl⟩))
        · exact Or.inr (Or.inr (Or.inr rfl))
    · rw [captureLoop, if_neg hok] at he
      simp only [List.mem_cons, List.mem_singleton, List.not_mem_nil, or_false] at he
      rcases he with rfl | rfl
      · exact Or.inl ⟨j, by simp⟩
      · exact Or.inr (Or.inr (Or.inr rfl))

/-! ### Explicit forms of the whole trace -/

theorem mainTrace_open_fail (d : Driver) (h : d.openRet = -1) :
    mainTrace d = [Event.openDev, Event.panicEvt "open"] := by
  rw [mainTrace, if_pos h]

theorem mainTrace_fmt_fail (d : Driver) (hopen : d.openRet ≠ -1)
    (hfmt : d.sfmtPixelformat ≠ V4L2_PIX_FMT_RGB24) :
    mainTrace d =
      [Event.openDev, Event.enumSizes, Event.setFmt, Event.panicEvt "format"] := by
  rw [mainTrace, if_neg hopen, if_neg hfmt]

theorem mainTrace_success (d : Driver) (hopen : d.openRet ≠ -1)
    (hfmt : d.sfmtPixelformat = V4L2_PIX_FMT_RGB24)
    (hmmap : ∀ i ∈ List.range d.reqCount, d.mmapOk i = true)
    (hdq : ∀ j ∈ List.range 20, d.dqIndex j < d.reqCount) :
    mainTrace d =
      Event.openDev :: Event.enumSizes :: Event.setFmt ::
        (warnIf d ++
          Event.reqbufs ::
            (mapPairs (List.range d.reqCount) ++
              ((List.range d.reqCount).map Event.qbuf ++
                Event.streamon ::
                  (capTriples d (List.range 20) ++
                    Event.streamoff ::
                      ((List.range d.reqCount).map Event.munmapBuf ++
                        [Event.closeDev]))))) := by
  rw [mainTrace, if_neg hopen, if_pos hfmt,
    mapLoop_ok d.mmapOk _ hmmap, captureLoop_ok d _ hdq]
  simp

theorem mainTrace_mmap_fail (d : Driver) (hopen : d.openRet ≠ -1)
    (hfmt : d.sfmtPixelformat = V4L2_PIX_FMT_RGB24)
    (k : Nat) (hk : k < d.reqCount)
    (hprev : ∀ i ∈ List.range k, d.mmapOk i = true) (hkf : d.mmapOk k = false) :
    mainTrace d =
      Event.openDev :: Event.enumSizes :: Event.setFmt ::
        (warnIf d ++
          Event.reqbufs ::
            (mapPairs (List.range k) ++
              [Event.querybuf k, Event.mmapFail k, Event.panicEvt "mmap"])) := by
  obtain ⟨L2, hL2⟩ := range_split_at k d.reqCount hk
  rw [mainTrace, if_neg hopen, if_pos hfmt, hL2,
    mapLoop_fail d.mmapOk _ k L2 hprev hkf]
  simp

theorem mainTrace_capture_fail (d : Driver) (hopen : d.openRet ≠ -1)
    (hfmt : d.sfmtPixelformat = V4L2_PIX_FMT_RGB24)
    (hmmap : ∀ i ∈ List.range d.reqCount, d.mmapOk i = true)
    (j : Nat) (hj : j < 20)
    (hbefore : ∀ x ∈ List.range j, d.dqIndex x < d.reqCount)
    (hbad : ¬ d.dqIndex j < d.reqCount) :
    mainTrace d =
      Event.openDev :: Event.enumSizes :: Event.setFmt ::
        (warnIf d ++
          Event.reqbufs ::
            (mapPairs (List.range d.reqCount) ++
              ((List.range d.reqCount).map Event.qbuf ++
                Event.streamon ::
                  (capTriples d (List.range j) ++
                    [Event.dqbuf (d.dqIndex j), Event.panicEvt "index"])))) := by
  obtain ⟨L2, hL2⟩ := range_split_at j 20 hj
  rw [mainTrace, if_neg hopen, if_pos hfmt, mapLoop_ok d.mmapOk _ hmmap, hL2,
    captureLoop_fail d _ j L2 hbefore hbad]
  simp

/-! ### Membership analysis -/

theorem mem_warnIf {d : Driver} {e : Event} :
    e ∈ warnIf d ↔
      (d.sfmtWidth ≠ 640 ∨ d.sfmtHeight ≠ 480) ∧
        e = Event.warnSize d.sfmtWidth d.sfmtHeight := by
  unfold warnIf
  split
  · simp_all
  · simp_all

theorem mem_mapPairs {e : Event} {L : List Nat} :
    e ∈ mapPairs L ↔
      ∃ i ∈ L, e = Event.querybuf i ∨ e = Event.mmapBuf i := by
  simp [mapPairs, List.mem_flatMap]

theorem mem_capTriples {d : Driver} {e : Event} {L : List Nat} :
    e ∈ capTriples d L ↔
      ∃ j ∈ L,
        e = Event.dqbuf (d.dqIndex j) ∨
          e = Event.writeFrame (d.dqIndex j) d.sfmtWidth d.sfmtHeight (d.dqBytes j) ∨
          e = Event.qbuf (d.dqIndex j) := by
  simp [capTriples, List.mem_flatMap]

/-- Every event of the trace has one of the shapes the program can emit,
with the side conditions under which it can emit it.  `P` is an arbitrary
property verified at each shape. -/
theorem forall_mem_mainTrace (d : Driver) (P : Event → Prop)
    (hOpen : P Event.openDev)
    (hPanicOpen : d.openRet = -1 → P (Event.panicEvt "open"))
    (hEnum : P Event.enumSizes)
    (hSet : P Event.setFmt)
    (hPanicFmt : d.sfmtPixelformat ≠ V4L2_PIX_FMT_RGB24 → P (Event.panicEvt "format"))
    (hWarn : P (Event.warnSize d.sfmtWidth d.sfmtHeight))
    (hReq : P Event.reqbufs)
    (hQuery : ∀ i, i < d.reqCount → P (Event.querybuf i))
    (hMmap : ∀ i, i < d.reqCount → P (Event.mmapBuf i))
    (hMfail : ∀ i, i < d.reqCount → P (Event.mmapFail i))
    (hPanicMmap : P (Event.panicEvt "mmap"))
    (hQbuf : ∀ i, i < d.reqCount → P (Event.qbuf i))
    (hSon : P Event.streamon)
    (hDq : ∀ i, P (Event.dqbuf i))
    (hWf : ∀ i b, i < d.reqCount →
      P (Event.writeFrame i d.sfmtWidth d.sfmtHeight b))
    (hPanicIdx : P (Event.panicEvt "index"))
    (hSoff : P Event.streamoff)
    (hMu : ∀ i, i < d.reqCount → P (Event.munmapBuf i))
    (hClose : P Event.closeDev) :
    ∀ e ∈ mainTrace d, P e := by
  intro e he
  by_cases ho : d.openRet = -1
  · rw [mainTrace_open_fail d ho] at he
    rcases List.mem_cons.mp he with rfl | he
    · exact hOpen
    · rw [List.mem_singleton] at he
      subst he
      exact hPanicOpen ho
  · rw [mainTrace, if_neg ho] at he
    rcases List.mem_cons.mp he with rfl | he
    · exact hOpen
    rcases List.mem_cons.mp he with rfl | he
    · exact hEnum
    rcases List.mem_cons.mp he with rfl | he
    · exact hSet
    by_cases hf : d.sfmtPixelformat = V4L2_PIX_FMT_RGB24
    · rw [if_pos hf] at he
      rcases List.mem_append.mp he with hw | he
      · rcases mem_warnIf.mp hw with ⟨_, rfl⟩
        exact hWarn
      rcases List.mem_cons.mp he with rfl | he
      · exact hReq
      rcases List.mem_append.mp he with hm | he
      · rcases mapLoop_shapes _ _ _ hm with
          ⟨i, hi, rfl⟩ | ⟨i, hi, rfl⟩ | ⟨i, hi, rfl⟩ | rfl
        · exact hQuery i (List.mem_range.mp hi)
        · exact hMmap i (List.mem_range.mp hi)
        · exact hMfail i (List.mem_range.mp hi)
        · exact hPanicMmap
      by_cases hmb : (mapLoop d.mmapOk (List.range d.reqCount)).2 = true
      case neg => rw [if_neg hmb] at he; simp at he
      rw [if_pos hmb] at he
      rcases List.mem_append.mp he with hq | he
      · rcases List.mem_map.mp hq with ⟨i, hi, rfl⟩
        exact hQbuf i (List.mem_range.mp hi)
      rcases List.mem_cons.mp he with rfl | he
      · exact hSon
      rcases List.mem_append.mp he with hc | he
      · rcases captureLoop_shapes _ _ _ _ _ _ _ hc with
          ⟨j, hj, rfl⟩ | ⟨j, hj, hlt, rfl⟩ | ⟨j, hj, hlt, rfl⟩ | rfl
        · exact hDq _
        · exact hWf _ _ hlt
        · exact hQbuf _ hlt
        · exact hPanicIdx
      by_cases hcb : (captureLoop d.reqCount d.sfmtWidth d.sfmtHeight
          d.dqIndex d.dqBytes (List.range 20)).2 = true
      case neg => rw [if_neg hcb] at he; simp at he
      rw [if_pos hcb] at he
      rcases List.mem_cons.mp he with rfl | he
      · exact hSoff
      rcases List.mem_append.mp he with hu | he
      · rcases List.mem_map.mp hu with ⟨i, hi, rfl⟩
        exact hMu i (List.mem_range.mp hi)
      · rw [List.mem_singleton] at he
        subst he
        exact hClose
    · rw [if_neg hf] at he
      rw [List.mem_singleton] at he
      subst he
      exact hPanicFmt hf

/-! ### filterMap computations over the trace pieces -/

theorem filterMap_mmapIdx_warnIf (d : Driver) :
    (warnIf d).filterMap mmapIdx? = [] := by
  unfold warnIf
  split <;> rfl

theorem filterMap_qbufIdx_warnIf (d : Driver) :
    (warnIf d).filterMap qbufIdx? = [] := by
  unfold warnIf
  split <;> rfl

theorem filterMap_mmapIdx_mapPairs (L : List Nat) :
    (mapPairs L).filterMap mmapIdx? = L := by
  induction L with
  | nil => rfl
  | cons i L ih =>
    rw [mapPairs, List.flatMap_cons]
    rw [List.filterMap_append]
    rw [show mapPairs L = L.flatMap fun i => [Event.querybuf i, Event.mmapBuf i] from rfl] at ih
    rw [ih]
    rfl

theorem filterMap_qbufIdx_mapPairs (L : List Nat) :
    (mapPairs L).filterMap qbufIdx? = [] := by
  induction L with
  | nil => rfl
  | cons i L ih =>
    rw [mapPairs, List.flatMap_cons, List.filterMap_append]
    rw [show mapPairs L = L.flatMap fun i => [Event.querybuf i, Event.mmapBuf i] from rfl] at ih
    rw [ih]
    rfl

theorem filterMap_mmapIdx_capTriples (d : Driver) (L : List Nat) :
    (capTriples d L).filterMap mmapIdx? = [] := by
  induction L with
  | nil => rfl
  | cons j L ih =>
    rw [capTriples, List.flatMap_cons, List.filterMap_append]
    rw [show capTriples d L = L.flatMap fun j =>
      [Event.dqbuf (d.dqIndex j),
       Event.writeFrame (d.dqIndex j) d.sfmtWidth d.sfmtHeight (d.dqBytes j),
       Event.qbuf (d.dqIndex j)] from rfl] at ih
    rw [ih]
    rfl

theorem filterMap_mmapIdx_qbufMap (L : List Nat) :
    ((L.map Event.qbuf).filterMap mmapIdx?) = [] := by
  induction L with
  | nil => rfl
  | cons i L ih => simp [List.filterMap_cons, mmapIdx?, ih]

theorem filterMap_qbufIdx_qbufMap (L : List Nat) :
    ((L.map Event.qbuf).filterMap qbufIdx?) = L := by
  induction L with
  | nil => rfl
  | cons i L ih => simp [List.filterMap_cons, qbufIdx?, ih]

theorem filterMap_mmapIdx_munmapMap (L : List Nat) :
    ((L.map Event.munmapBuf).filterMap mmapIdx?) = [] := by
  induction L with
  | nil => rfl
  | cons i L ih => simp [List.filterMap_cons, mmapIdx?, ih]

/-! ### The prefix of the trace before stream-on -/

theorem preStreamon_qbufs (d : Driver) (tail : List Event) :
    ((Event.openDev :: Event.enumSizes :: Event.setFmt ::
        (warnIf d ++
          Event.reqbufs ::
            (mapPairs (List.range d.reqCount) ++
              ((List.range d.reqCount).map Event.qbuf ++
                Event.streamon :: tail)))).takeWhile
        (fun e => !isStreamon e)).filterMap qbufIdx? =
      List.range d.reqCount := by
  rw [List.takeWhile_cons_of_pos (by rfl), List.takeWhile_cons_of_pos (by rfl),
    List.takeWhile_cons_of_pos (by rfl),
    takeWhile_append_all _ _ _
      (fun x hx => by rcases mem_warnIf.mp hx with ⟨_, rfl⟩; rfl),
    List.takeWhile_cons_of_pos (by rfl),
    takeWhile_append_all _ _ _
      (fun x hx => by
        rcases mem_mapPairs.mp hx with ⟨i, _, rfl | rfl⟩ <;> rfl),
    takeWhile_append_all _ _ _
      (fun x hx => by rcases List.mem_map.mp hx with ⟨i, _, rfl⟩; rfl),
    List.takeWhile_cons_of_neg (by simp [isStreamon])]
  simp only [List.append_nil, List.filterMap_cons, List.filterMap_append,
    filterMap_qbufIdx_warnIf, filterMap_qbufIdx_mapPairs, filterMap_qbufIdx_qbufMap]
  rfl

/-! ### Locating the first out-of-range dequeue -/

theorem first_failure_split (f : Nat -> Prop) (n : Nat)
    (hor : ∀ j, f j ∨ ¬ f j) :
    (∀ j ∈ List.range n, f j) ∨
      ∃ j, j < n ∧ (∀ x ∈ List.range j, f x) ∧ ¬ f j := by
  induction n with
  | zero => left; simp
  | succ n ih =>
    rcases ih with h | ⟨j, hj, hx, hf⟩
    · rcases hor n with hn | hn
      · left
        intro j hjn
        rw [List.mem_range] at hjn
        rcases Nat.lt_succ_iff_lt_or_eq.mp hjn with hlt | rfl
        · exact h j (List.mem_range.mpr hlt)
        · exact hn
      · right
        exact ⟨n, Nat.lt_succ_self n, h, hn⟩
    · right
      exact ⟨j, Nat.lt_succ_of_lt hj, hx, hf⟩

/-! ## Claim theorems -/

/-- C1: If set-format negotiation returns a pixel layout different from the
requested RGB24 layout, the session fails fatally with the format panic
(lines 195-198), and no request-buffers or mapping operation appears in the
trace afterwards: buffers are requested only in executions where the
returned pixel layout equals the requested one. -/
theorem format_substitution_is_fatal_before_allocation (d : Driver)
    (hopen : d.openRet ≠ -1)
    (hfmt : d.sfmtPixelformat ≠ V4L2_PIX_FMT_RGB24) :
    mainTrace d =
      [Event.openDev, Event.enumSizes, Event.setFmt, Event.panicEvt "format"] ∧
    Event.reqbufs ∉ mainTrace d ∧
    (∀ i, Event.mmapBuf i ∉ mainTrace d) := by
  have h := mainTrace_fmt_fail d hopen hfmt
  refine ⟨h, ?_, ?_⟩
  · rw [h]; decide
  · intro i; rw [h]; simp

theorem format_substitution_is_fatal_before_allocation_witness :
    (dFmtBad.openRet ≠ -1 ∧ dFmtBad.sfmtPixelformat ≠ V4L2_PIX_FMT_RGB24) ∧
    (mainTrace dFmtBad =
      [Event.openDev, Event.enumSizes, Event.setFmt, Event.panicEvt "format"] ∧
    Event.reqbufs ∉ mainTrace dFmtBad ∧
    (∀ i, Event.mmapBuf i ∉ mainTrace dFmtBad)) :=
  ⟨by decide,
    format_substitution_is_fatal_before_allocation dFmtBad (by decide) (by decide)⟩

/-- C3 witness: two retryable failures (EINTR then EAGAIN) are skipped and the
first success is returned unchanged, with a further outcome left unread. -/
theorem xioctl_skips_retryable_witness :
    (∀ p ∈ [CallOutcome.mk (-1) 4, CallOutcome.mk (-1) 11], retryable p = true) ∧
    retryable (CallOutcome.mk 0 0) = false ∧
    xioctl
        ([CallOutcome.mk (-1) 4, CallOutcome.mk (-1) 11] ++
          CallOutcome.mk 0 0 :: [CallOutcome.mk (-1) 5]) =
      some (CallOutcome.mk 0 0) :=
  ⟨by decide, by decide,
    xioctl_skips_retryable [CallOutcome.mk (-1) 4, CallOutcome.mk (-1) 11]
      (CallOutcome.mk 0 0) [CallOutcome.mk (-1) 5] (by decide) (by decide)⟩

/-- C7 counterexample: in a fully successful execution the dequeue is issued
with no readiness wait anywhere in the trace — the claimed
select/poll-style wait before each dequeue does not exist in this program
(the loop at lines 331-345 goes straight to `VIDIOC_DQBUF`). -/
theorem dequeue_issued_without_readiness_wait :
    Event.dqbuf 0 ∈ mainTrace dOK ∧ Event.waitReady ∉ mainTrace dOK := by decide

/-- C7 amended: the streaming loop performs no readiness wait at all: no
execution of the program, whatever the driver does, contains a readiness
wait; each iteration issues the dequeue directly, relying on the blocking
descriptor (`O_NONBLOCK` is commented out at line 60) and on the
EINTR/EAGAIN retry inside the ioctl wrapper. -/
theorem streaming_loop_never_waits_for_readiness (d : Driver) :
    Event.waitReady ∉ mainTrace d := by
  intro hmem
  exact absurd rfl
    (forall_mem_mainTrace d (fun e => e ≠ Event.waitReady)
      (by simp) (fun _ => by simp) (by simp) (by simp) (fun _ => by simp) (by simp)
      (by simp) (fun _ _ => by simp) (fun _ _ => by simp) (fun _ _ => by simp)
      (by simp) (fun _ _ => by simp) (by simp) (fun _ => by simp)
      (fun _ _ _ => by simp) (by simp) (by simp) (fun _ _ => by simp) (by simp)
      _ hmem)

theorem streaming_loop_never_waits_for_readiness_witness :
    Event.waitReady ∉ mainTrace dShortFrame :=
  streaming_loop_never_waits_for_readiness dShortFrame

/-- C9 counterexample: the flags passed to `v4l2_open` (line 60) do not
include the non-blocking flag — `O_NONBLOCK` is commented out — so the
open is not read-write plus non-blocking as claimed. -/
theorem open_flags_lack_nonblocking :
    openFlags &&& O_NONBLOCK = 0 ∧ openFlags ≠ O_RDWR ||| O_NONBLOCK := by decide

/-- C9 amended: the open operation opens the device node in read-write,
blocking mode (the non-blocking flag is not set); when the underlying open
call returns -1 the program logs the failing return value together with the
OS error text and aborts fatally; otherwise no open panic occurs and the
session proceeds. -/
theorem open_is_blocking_rdwr_and_panics_on_failure (d d' : Driver)
    (h : d.openRet = -1) (h' : d'.openRet ≠ -1) :
    openFlags = O_RDWR ∧ openFlags &&& O_NONBLOCK = 0 ∧
    mainTrace d = [Event.openDev, Event.panicEvt "open"] ∧
    Event.panicEvt "open" ∉ mainTrace d' := by
  refine ⟨rfl, by decide, mainTrace_open_fail d h, ?_⟩
  intro hmem
  exact absurd rfl
    (forall_mem_mainTrace d' (fun e => e ≠ Event.panicEvt "open")
      (by simp) (fun hc => absurd hc h') (by simp) (by simp) (fun _ => by decide)
      (by simp) (by simp) (fun _ _ => by simp) (fun _ _ => by simp)
      (fun _ _ => by simp) (by decide) (fun _ _ => by simp) (by simp)
      (fun _ => by simp) (fun _ _ _ => by simp) (by decide) (by simp)
      (fun _ _ => by simp) (by simp)
      _ hmem)

theorem open_is_blocking_rdwr_and_panics_on_failure_witness :
    (dOpenBad.openRet = -1 ∧ dOK.openRet ≠ -1) ∧
    (openFlags = O_RDWR ∧ openFlags &&& O_NONBLOCK = 0 ∧
    mainTrace dOpenBad = [Event.openDev, Event.panicEvt "open"] ∧
    Event.panicEvt "open" ∉ mainTrace dOK) :=
  ⟨by decide,
    open_is_blocking_rdwr_and_panics_on_failure dOpenBad dOK (by decide) (by decide)⟩


/-- C2 counterexample: with the second mapping failing (driver `dMmapBad`),
the execution ends at the mmap panic (line 285) and the trace contains no
stream-off, no unmap of the already-mapped buffer 0, and no close: teardown
does not execute on this fatal failure. -/
theorem teardown_missing_after_mmap_failure :
    Event.mmapBuf 0 ∈ mainTrace dMmapBad ∧
    (mainTrace dMmapBad).getLast? = some (Event.panicEvt "mmap") ∧
    Event.streamoff ∉ mainTrace dMmapBad ∧
    Event.munmapBuf 0 ∉ mainTrace dMmapBad ∧
    Event.closeDev ∉ mainTrace dMmapBad := by decide

/-- C2 amended: the teardown sequence — stream-off, then unmap of each of the
mapped buffers exactly once (indices 0..C-1 in order), then close, none of
them occurring earlier in the trace — executes exactly in the runs where the
capture loop completes normally (lines 384-400); in every other execution —
open failure, format rejection, a mapping failure, or an out-of-range
dequeue index — the process panics and no stream-off, unmap or close is
executed. -/
theorem teardown_runs_exactly_on_normal_exit (d : Driver) :
    (normalRun d →
      ∃ pre,
        mainTrace d =
          pre ++
            Event.streamoff ::
              ((List.range d.reqCount).map Event.munmapBuf ++ [Event.closeDev]) ∧
        Event.streamoff ∉ pre ∧ Event.closeDev ∉ pre ∧
        ∀ i, Event.munmapBuf i ∉ pre) ∧
    (¬ normalRun d →
      Event.streamoff ∉ mainTrace d ∧ Event.closeDev ∉ mainTrace d ∧
      ∀ i, Event.munmapBuf i ∉ mainTrace d) := by
  constructor
  · intro hn
    unfold normalRun at hn
    obtain ⟨hopen, hfmt, hmmap, hdq⟩ := hn
    refine ⟨Event.openDev :: Event.enumSizes :: Event.setFmt ::
      (warnIf d ++ Event.reqbufs ::
        (mapPairs (List.range d.reqCount) ++
          ((List.range d.reqCount).map Event.qbuf ++
            Event.streamon :: capTriples d (List.range 20)))), ?_, ?_, ?_, ?_⟩
    · rw [mainTrace_success d hopen hfmt hmmap hdq]
      simp [List.cons_append, List.append_assoc]
    · intro hmem
      simp [mem_warnIf, mem_mapPairs, mem_capTriples] at hmem
    · intro hmem
      simp [mem_warnIf, mem_mapPairs, mem_capTriples] at hmem
    · intro i hmem
      simp [mem_warnIf, mem_mapPairs, mem_capTriples] at hmem
  · intro hnot
    by_cases hopen : d.openRet = -1
    · rw [mainTrace_open_fail d hopen]
      exact ⟨by simp, by simp, fun i => by simp⟩
    · by_cases hfmt : d.sfmtPixelformat = V4L2_PIX_FMT_RGB24
      · by_cases hmmap : ∀ i ∈ List.range d.reqCount, d.mmapOk i = true
        · have hdqn : ¬ ∀ j ∈ List.range 20, d.dqIndex j < d.reqCount :=
            fun hdq => hnot ⟨hopen, hfmt, hmmap, hdq⟩
          rcases first_failure_split (fun j => d.dqIndex j < d.reqCount) 20
              (fun j => Classical.em _) with hall | ⟨j, hj, hbefore, hbad⟩
          · exact absurd hall hdqn
          · rw [mainTrace_capture_fail d hopen hfmt hmmap j hj hbefore hbad]
            refine ⟨?_, ?_, ?_⟩
            · intro hmem
              simp [mem_warnIf, mem_mapPairs, mem_capTriples] at hmem
            · intro hmem
              simp [mem_warnIf, mem_mapPairs, mem_capTriples] at hmem
            · intro i hmem
              simp [mem_warnIf, mem_mapPairs, mem_capTriples] at hmem
        · rcases first_failure_split (fun i => d.mmapOk i = true) d.reqCount
              (fun i => Classical.em _) with hall | ⟨k, hk, hprev, hkf⟩
          · exact absurd hall hmmap
          · rw [mainTrace_mmap_fail d hopen hfmt k hk hprev
              (Bool.eq_false_iff.mpr hkf)]
            refine ⟨?_, ?_, ?_⟩
            · intro hmem
              simp [mem_warnIf, mem_mapPairs] at hmem
            · intro hmem
              simp [mem_warnIf, mem_mapPairs] at hmem
            · intro i hmem
              simp [mem_warnIf, mem_mapPairs] at hmem
      · rw [mainTrace_fmt_fail d hopen hfmt]
        exact ⟨by simp, by simp, fun i => by simp⟩

theorem teardown_runs_exactly_on_normal_exit_witness :
    normalRun dOK ∧ ¬ normalRun dMmapBad ∧
    (∃ pre,
      mainTrace dOK =
        pre ++
          Event.streamoff ::
            ((List.range dOK.reqCount).map Event.munmapBuf ++ [Event.closeDev]) ∧
      Event.streamoff ∉ pre ∧ Event.closeDev ∉ pre ∧
      ∀ i, Event.munmapBuf i ∉ pre) ∧
    (Event.streamoff ∉ mainTrace dMmapBad ∧ Event.closeDev ∉ mainTrace dMmapBad ∧
      ∀ i, Event.munmapBuf i ∉ mainTrace dMmapBad) :=
  ⟨by unfold normalRun; decide, by unfold normalRun; decide,
    (teardown_runs_exactly_on_normal_exit dOK).1 (by unfold normalRun; decide),
    (teardown_runs_exactly_on_normal_exit dMmapBad).2 (by unfold normalRun; decide)⟩

/-- C6 counterexample: on driver `dMmapBad` — buffer 0 mapped, buffer 1
failing to map — the previously mapped buffer 0 is not unmapped before the
process aborts: the mapping is leaked to process exit. -/
theorem partial_mapping_failure_leaks_mapping :
    Event.mmapBuf 0 ∈ mainTrace dMmapBad ∧
    Event.mmapFail 1 ∈ mainTrace dMmapBad ∧
    Event.munmapBuf 0 ∉ mainTrace dMmapBad := by decide

/-- C6 amended: if, during the map-all phase, mapping the buffer at index k
fails while buffers 0..k-1 were successfully mapped, the program panics
immediately (line 285); none of the previously mapped buffers is unmapped
before the abort — the mapped regions are reclaimed only by process
exit. -/
theorem partial_mapping_failure_aborts_without_unmap (d : Driver)
    (hopen : d.openRet ≠ -1)
    (hfmt : d.sfmtPixelformat = V4L2_PIX_FMT_RGB24)
    (k : Nat) (hk : k < d.reqCount)
    (hprev : ∀ i ∈ List.range k, d.mmapOk i = true)
    (hkf : d.mmapOk k = false) :
    (∀ i ∈ List.range k, Event.mmapBuf i ∈ mainTrace d) ∧
    (∀ i, Event.munmapBuf i ∉ mainTrace d) ∧
    (∃ pre, mainTrace d = pre ++ [Event.panicEvt "mmap"]) := by
  have ht := mainTrace_mmap_fail d hopen hfmt k hk hprev hkf
  refine ⟨?_, ?_, ?_⟩
  · intro i hi
    rw [ht]
    exact List.mem_cons_of_mem _ (List.mem_cons_of_mem _ (List.mem_cons_of_mem _
      (List.mem_append.mpr (Or.inr (List.mem_cons_of_mem _
        (List.mem_append.mpr (Or.inl (mem_mapPairs.mpr ⟨i, hi, Or.inr rfl⟩))))))))
  · intro i hmem
    rw [ht] at hmem
    simp [mem_warnIf, mem_mapPairs] at hmem
  · refine ⟨Event.openDev :: Event.enumSizes :: Event.setFmt ::
      (warnIf d ++ Event.reqbufs ::
        (mapPairs (List.range k) ++ [Event.querybuf k, Event.mmapFail k])), ?_⟩
    rw [ht]
    simp [List.cons_append, List.append_assoc]

theorem partial_mapping_failure_aborts_without_unmap_witness :
    (dMmapBad.openRet ≠ -1 ∧ dMmapBad.sfmtPixelformat = V4L2_PIX_FMT_RGB24 ∧
      1 < dMmapBad.reqCount ∧ (∀ i ∈ List.range 1, dMmapBad.mmapOk i = true) ∧
      dMmapBad.mmapOk 1 = false) ∧
    ((∀ i ∈ List.range 1, Event.mmapBuf i ∈ mainTrace dMmapBad) ∧
    (∀ i, Event.munmapBuf i ∉ mainTrace dMmapBad) ∧
    (∃ pre, mainTrace dMmapBad = pre ++ [Event.panicEvt "mmap"])) :=
  ⟨⟨by decide, by decide, by decide, by decide, by decide⟩,
    partial_mapping_failure_aborts_without_unmap dMmapBad (by decide) (by decide)
      1 (by decide) (by decide) (by decide)⟩


/-- C4: for the granted buffer count C (with the requested count 2 and
C ≤ 2), the pool maps exactly the indices 0..C-1 in order (so they are
unique and exactly that set), the enqueues issued before stream-on are
exactly the indices 0..C-1, and no index outside 0..C-1 is ever mapped or
enqueued anywhere in the trace. -/
theorem pool_maps_and_enqueues_exactly_granted_indices (d : Driver)
    (hopen : d.openRet ≠ -1)
    (hfmt : d.sfmtPixelformat = V4L2_PIX_FMT_RGB24)
    (hcnt : d.reqCount ≤ REQUESTED_COUNT)
    (hmmap : ∀ i ∈ List.range d.reqCount, d.mmapOk i = true) :
    (mainTrace d).filterMap mmapIdx? = List.range d.reqCount ∧
    ((mainTrace d).takeWhile (fun e => !isStreamon e)).filterMap qbufIdx? =
      List.range d.reqCount ∧
    (∀ i, Event.qbuf i ∈ mainTrace d → i < d.reqCount) ∧
    (∀ i, Event.mmapBuf i ∈ mainTrace d → i < d.reqCount) := by
  have h34a : ∀ i, Event.qbuf i ∈ mainTrace d → i < d.reqCount := by
    intro i hmem
    exact forall_mem_mainTrace d (fun e => e = Event.qbuf i → i < d.reqCount)
      (by simp) (fun _ => by simp) (by simp) (by simp) (fun _ => by simp) (by simp)
      (by simp) (fun _ _ => by simp) (fun _ _ => by simp) (fun _ _ => by simp)
      (by simp) (fun x hx heq => by injection heq with h1; omega) (by simp)
      (fun _ => by simp) (fun _ _ _ => by simp) (by simp) (by simp)
      (fun _ _ => by simp) (by simp) _ hmem rfl
  have h34b : ∀ i, Event.mmapBuf i ∈ mainTrace d → i < d.reqCount := by
    intro i hmem
    exact forall_mem_mainTrace d (fun e => e = Event.mmapBuf i → i < d.reqCount)
      (by simp) (fun _ => by simp) (by simp) (by simp) (fun _ => by simp) (by simp)
      (by simp) (fun _ _ => by simp)
      (fun x hx heq => by injection heq with h1; omega)
      (fun _ _ => by simp) (by simp) (fun _ _ => by simp) (by simp)
      (fun _ => by simp) (fun _ _ _ => by simp) (by simp) (by simp)
      (fun _ _ => by simp) (by simp) _ hmem rfl
  rcases first_failure_split (fun j => d.dqIndex j < d.reqCount) 20
      (fun j => Classical.em _) with hall | ⟨j, hj, hbefore, hbad⟩
  · have ht := mainTrace_success d hopen hfmt hmmap hall
    refine ⟨?_, ?_, h34a, h34b⟩
    · rw [ht]
      simp [List.filterMap_append, List.filterMap_cons, mmapIdx?,
        filterMap_mmapIdx_warnIf, filterMap_mmapIdx_mapPairs,
        filterMap_mmapIdx_qbufMap, filterMap_mmapIdx_capTriples,
        filterMap_mmapIdx_munmapMap]
    · rw [ht]
      exact preStreamon_qbufs d _
  · have ht := mainTrace_capture_fail d hopen hfmt hmmap j hj hbefore hbad
    refine ⟨?_, ?_, h34a, h34b⟩
    · rw [ht]
      simp [List.filterMap_append, List.filterMap_cons, mmapIdx?,
        filterMap_mmapIdx_warnIf, filterMap_mmapIdx_mapPairs,
        filterMap_mmapIdx_qbufMap, filterMap_mmapIdx_capTriples]
    · rw [ht]
      exact preStreamon_qbufs d _

theorem pool_maps_and_enqueues_exactly_granted_indices_witness :
    (dOK.openRet ≠ -1 ∧ dOK.sfmtPixelformat = V4L2_PIX_FMT_RGB24 ∧
      dOK.reqCount ≤ REQUESTED_COUNT ∧
      (∀ i ∈ List.range dOK.reqCount, dOK.mmapOk i = true)) ∧
    ((mainTrace dOK).filterMap mmapIdx? = List.range dOK.reqCount ∧
    ((mainTrace dOK).takeWhile (fun e => !isStreamon e)).filterMap qbufIdx? =
      List.range dOK.reqCount ∧
    (∀ i, Event.qbuf i ∈ mainTrace dOK → i < dOK.reqCount) ∧
    (∀ i, Event.mmapBuf i ∈ mainTrace dOK → i < dOK.reqCount)) :=
  ⟨⟨by decide, by decide, by decide, by decide⟩,
    pool_maps_and_enqueues_exactly_granted_indices dOK (by decide) (by decide)
      (by decide) (by decide)⟩

/-- C5 counterexample: a dequeue reporting 100 filled bytes for a 640x480
frame produces a file whose payload is 100 bytes, not 640*480*3: the
program writes `buf.bytesused` bytes (line 359), not the frame area. -/
theorem frame_payload_is_bytesused_not_area :
    Event.writeFrame 0 640 480 100 ∈ mainTrace dShortFrame ∧
    (writtenFrameFile 640 480 100).payloadLen ≠ 640 * 480 * 3 := by decide

/-- C5 amended: the pixel-map file written for a frame with negotiated width
W and height H consists of the ASCII header `P6\n{W} {H} 255\n` followed by
exactly `bytesused` raw bytes — the driver-reported filled byte count,
which need not equal W*H*3 — and nothing else, and parsing that header
recovers W and H exactly. -/
theorem frame_file_header_and_payload (w h bytesused : Nat) :
    (writtenFrameFile w h bytesused).header = ppmHeaderChars w h ∧
    (writtenFrameFile w h bytesused).payloadLen = bytesused ∧
    parseHeader ((writtenFrameFile w h bytesused).header) = some (w, h) :=
  ⟨rfl, rfl, parseHeader_round_trip w h⟩

/-- C8: if negotiation returns the requested pixel layout but a size other
than 640x480, the session does not fail: the warning carrying the driver
actual values is emitted, buffer allocation is still reached, no format
panic occurs, and every frame header written uses the driver-returned
width and height, never the requested ones. -/
theorem size_substitution_warns_and_driver_size_used (d : Driver)
    (hopen : d.openRet ≠ -1)
    (hfmt : d.sfmtPixelformat = V4L2_PIX_FMT_RGB24)
    (hwh : d.sfmtWidth ≠ 640 ∨ d.sfmtHeight ≠ 480) :
    Event.warnSize d.sfmtWidth d.sfmtHeight ∈ mainTrace d ∧
    Event.reqbufs ∈ mainTrace d ∧
    Event.panicEvt "format" ∉ mainTrace d ∧
    (∀ i w h b, Event.writeFrame i w h b ∈ mainTrace d →
      w = d.sfmtWidth ∧ h = d.sfmtHeight) := by
  refine ⟨?_, ?_, ?_, ?_⟩
  · rw [mainTrace, if_neg hopen, if_pos hfmt]
    exact List.mem_cons_of_mem _ (List.mem_cons_of_mem _ (List.mem_cons_of_mem _
      (List.mem_append.mpr (Or.inl (mem_warnIf.mpr ⟨hwh, rfl⟩)))))
  · rw [mainTrace, if_neg hopen, if_pos hfmt]
    exact List.mem_cons_of_mem _ (List.mem_cons_of_mem _ (List.mem_cons_of_mem _
      (List.mem_append.mpr (Or.inr (List.mem_cons_self _ _)))))
  · intro hmem
    exact absurd rfl
      (forall_mem_mainTrace d (fun e => e ≠ Event.panicEvt "format")
        (by simp) (fun _ => by decide) (by simp) (by simp)
        (fun hc => absurd hfmt hc) (by simp) (by simp)
        (fun _ _ => by simp) (fun _ _ => by simp) (fun _ _ => by simp)
        (by decide) (fun _ _ => by simp) (by simp) (fun _ => by simp)
        (fun _ _ _ => by simp) (by decide) (by simp) (fun _ _ => by simp)
        (by simp) _ hmem)
  · intro i w h b hmem
    exact forall_mem_mainTrace d
      (fun e => e = Event.writeFrame i w h b → w = d.sfmtWidth ∧ h = d.sfmtHeight)
      (by simp) (fun _ => by simp) (by simp) (by simp) (fun _ => by simp) (by simp)
      (by simp) (fun _ _ => by simp) (fun _ _ => by simp) (fun _ _ => by simp)
      (by simp) (fun _ _ => by simp) (by simp) (fun _ => by simp)
      (fun x bb hx heq => by
        injection heq with h1 h2 h3 h4
        exact ⟨h2.symm, h3.symm⟩)
      (by simp) (by simp) (fun _ _ => by simp) (by simp) _ hmem rfl

theorem size_substitution_warns_and_driver_size_used_witness :
    (dSizeSub.openRet ≠ -1 ∧ dSizeSub.sfmtPixelformat = V4L2_PIX_FMT_RGB24 ∧
      (dSizeSub.sfmtWidth ≠ 640 ∨ dSizeSub.sfmtHeight ≠ 480)) ∧
    (Event.warnSize dSizeSub.sfmtWidth dSizeSub.sfmtHeight ∈ mainTrace dSizeSub ∧
    Event.reqbufs ∈ mainTrace dSizeSub ∧
    Event.panicEvt "format" ∉ mainTrace dSizeSub ∧
    (∀ i w h b, Event.writeFrame i w h b ∈ mainTrace dSizeSub →
      w = dSizeSub.sfmtWidth ∧ h = dSizeSub.sfmtHeight)) :=
  ⟨⟨by decide, by decide, by decide⟩,
    size_substitution_warns_and_driver_size_used dSizeSub (by decide) (by decide)
      (by decide)⟩

/-- C10: frame bytes are read by indexing the mapped-buffer vector with the
driver-returned dequeue index — every frame written carries an index below
the mapped count — and a dequeue whose returned index is not below the
mapped count halts the program with the index panic right after the
dequeue, before any stream-off: no read through an unmapped slot occurs. -/
theorem out_of_range_dequeue_index_panics (d : Driver)
    (hopen : d.openRet ≠ -1)
    (hfmt : d.sfmtPixelformat = V4L2_PIX_FMT_RGB24)
    (hmmap : ∀ i ∈ List.range d.reqCount, d.mmapOk i = true)
    (j : Nat) (hj : j < 20)
    (hbefore : ∀ x ∈ List.range j, d.dqIndex x < d.reqCount)
    (hbad : d.reqCount ≤ d.dqIndex j) :
    (∀ i w h b, Event.writeFrame i w h b ∈ mainTrace d → i < d.reqCount) ∧
    (∀ x ∈ List.range j,
      Event.writeFrame (d.dqIndex x) d.sfmtWidth d.sfmtHeight (d.dqBytes x) ∈
        mainTrace d) ∧
    Event.dqbuf (d.dqIndex j) ∈ mainTrace d ∧
    Event.streamoff ∉ mainTrace d ∧
    (∃ pre, mainTrace d = pre ++ [Event.panicEvt "index"]) := by
  have ht := mainTrace_capture_fail d hopen hfmt hmmap j hj hbefore
    (Nat.not_lt.mpr hbad)
  refine ⟨?_, ?_, ?_, ?_, ?_⟩
  · intro i w h b hmem
    exact forall_mem_mainTrace d
      (fun e => e = Event.writeFrame i w h b → i < d.reqCount)
      (by simp) (fun _ => by simp) (by simp) (by simp) (fun _ => by simp) (by simp)
      (by simp) (fun _ _ => by simp) (fun _ _ => by simp) (fun _ _ => by simp)
      (by simp) (fun _ _ => by simp) (by simp) (fun _ => by simp)
      (fun x bb hx heq => by injection heq with h1 h2 h3 h4; omega)
      (by simp) (by simp) (fun _ _ => by simp) (by simp) _ hmem rfl
  · intro x hx
    rw [ht]
    exact List.mem_cons_of_mem _ (List.mem_cons_of_mem _ (List.mem_cons_of_mem _
      (List.mem_append.mpr (Or.inr (List.mem_cons_of_mem _
        (List.mem_append.mpr (Or.inr (List.mem_append.mpr (Or.inr
          (List.mem_cons_of_mem _ (List.mem_append.mpr (Or.inl
            (mem_capTriples.mpr ⟨x, hx, Or.inr (Or.inl rfl)⟩)))))))))))))
  · rw [ht]
    exact List.mem_cons_of_mem _ (List.mem_cons_of_mem _ (List.mem_cons_of_mem _
      (List.mem_append.mpr (Or.inr (List.mem_cons_of_mem _
        (List.mem_append.mpr (Or.inr (List.mem_append.mpr (Or.inr
          (List.mem_cons_of_mem _ (List.mem_append.mpr (Or.inr
            (List.mem_cons_self _ _)))))))))))))
  · intro hmem
    rw [ht] at hmem
    simp [mem_warnIf, mem_mapPairs, mem_capTriples] at hmem
  · refine ⟨Event.openDev :: Event.enumSizes :: Event.setFmt ::
      (warnIf d ++ Event.reqbufs ::
        (mapPairs (List.range d.reqCount) ++
          ((List.range d.reqCount).map Event.qbuf ++
            Event.streamon ::
              (capTriples d (List.range j) ++
                [Event.dqbuf (d.dqIndex j)])))), ?_⟩
    rw [ht]
    simp [List.cons_append, List.append_assoc]

theorem out_of_range_dequeue_index_panics_witness :
    (dIdxBad.openRet ≠ -1 ∧ dIdxBad.sfmtPixelformat = V4L2_PIX_FMT_RGB24 ∧
      (∀ i ∈ List.range dIdxBad.reqCount, dIdxBad.mmapOk i = true) ∧
      0 < 20 ∧ (∀ x ∈ List.range 0, dIdxBad.dqIndex x < dIdxBad.reqCount) ∧
      dIdxBad.reqCount ≤ dIdxBad.dqIndex 0) ∧
    ((∀ i w h b, Event.writeFrame i w h b ∈ mainTrace dIdxBad →
        i < dIdxBad.reqCount) ∧
    (∀ x ∈ List.range 0,
      Event.writeFrame (dIdxBad.dqIndex x) dIdxBad.sfmtWidth dIdxBad.sfmtHeight
          (dIdxBad.dqBytes x) ∈ mainTrace dIdxBad) ∧
    Event.dqbuf (dIdxBad.dqIndex 0) ∈ mainTrace dIdxBad ∧
    Event.streamoff ∉ mainTrace dIdxBad ∧
    (∃ pre, mainTrace dIdxBad = pre ++ [Event.panicEvt "index"])) :=
  ⟨⟨by decide, by decide, by decide, by decide, by decide, by decide⟩,
    out_of_range_dequeue_index_panics dIdxBad (by decide) (by decide) (by decide)
      0 (by decide) (by decide) (by decide)⟩

end V4l2grab
